import Mathlib

/-!
Shallow embedding of the cave plugin (src/main.py): the SQLite-backed
storage engine `CaveDatabase` and the command-facing facade `CavePlugin`.

The durable table is modelled as a `List Cave` (one element per row).
Every storage operation in the source wraps its SQL in `try/except`; the
exception possibility is modelled by a leading `ok : Bool` argument:
`ok = true` is the normal path, `ok = false` is the path where the SQL
raises and the `except` branch runs (logging and returning the fallback
value, exactly as in the source).
-/

/-- One row of the `cave` table (columns in schema order). -/
structure Cave where
  cave_id : Nat
  text : String
  sender_id : Int
  group_id : Int
  group_nick : String
  pick_count : Nat
  date : Nat
  is_deleted : Bool
deriving DecidableEq, Repr

/-- All suffixes of a list, longest first (the list itself down to `[]`). -/
def suffixes : List Char → List (List Char)
  | [] => [[]]
  | c :: s => (c :: s) :: suffixes s

/-- ASCII lower-casing, as SQLite's `LIKE` applies it: only `A`–`Z` fold. -/
def lowerAscii (c : Char) : Char :=
  if 'A' ≤ c ∧ c ≤ 'Z' then Char.ofNat (c.toNat + 32) else c

/-- Character comparison of SQLite `LIKE`: case-insensitive on ASCII letters. -/
def charEqCI (a b : Char) : Bool :=
  lowerAscii a == lowerAscii b

/-- SQLite `LIKE` pattern matching (no `ESCAPE` clause): `%` matches any
sequence of characters, `_` matches any single character, other characters
match themselves up to ASCII case. The pattern must cover the whole string. -/
def likeMatch : List Char → List Char → Bool
  | [], s => s.isEmpty
  | '%' :: ps, s => (suffixes s).any (fun t => likeMatch ps t)
  | '_' :: ps, s =>
      match s with
      | [] => false
      | _ :: s' => likeMatch ps s'
  | p :: ps, s =>
      match s with
      | [] => false
      | c :: s' => charEqCI p c && likeMatch ps s'

/-- The pattern `search_caves` binds for keyword `kw`: the f-string `"%{kw}%"`. -/
def likePattern (kw : String) : List Char :=
  '%' :: kw.data ++ ['%']

/-- Python `str.isdigit` restricted to ASCII: non-empty and all characters
are decimal digits. -/
def pyIsDigit (s : List Char) : Bool :=
  !s.isEmpty && s.all (fun c => c.isDigit)

def strIsDigit (s : String) : Bool :=
  pyIsDigit s.data

/-- Python `int(s)` on an all-digit string. -/
def digitsToNat (s : List Char) : Nat :=
  s.foldl (fun acc c => acc * 10 + (c.toNat - 48)) 0

/-- Substring containment, written from the spec's words («substring
containment»), used to compare against the source's `LIKE`-based search. -/
def specContains (kw text : String) : Bool :=
  (suffixes text.data).any (fun t => kw.data.isPrefixOf t)

/-- `CaveDatabase.add_cave`: `INSERT` of a fresh row with `pick_count = 0`,
`is_deleted = 0`, and the `AUTOINCREMENT` id (strictly above every existing
id); returns `lastrowid`, or `None` when the SQL raised. -/
def nextCaveId (db : List Cave) : Nat :=
  (db.map Cave.cave_id).foldr max 0 + 1

def add_cave (ok : Bool) (db : List Cave) (sender_id : Int) (group_id : Int)
    (group_nick : String) (content : String) (now : Nat) : List Cave × Option Nat :=
  if ok then
    (db ++ [{ cave_id := nextCaveId db, text := content, sender_id := sender_id,
              group_id := group_id, group_nick := group_nick, pick_count := 0,
              date := now, is_deleted := false }],
     some (nextCaveId db))
  else (db, none)

/-- `CaveDatabase.get_cave`: `SELECT * WHERE cave_id = ?` with `fetchone`;
no `is_deleted` filter. On an exception the `except` branch returns `None`. -/
def get_cave (ok : Bool) (db : List Cave) (cave_id : Nat) : Option Cave :=
  if ok then db.find? (fun c => c.cave_id == cave_id) else none

/-- Row transformer of the `UPDATE ... SET pick_count = pick_count + 1` row. -/
def bumpPick (cave_id : Nat) (c : Cave) : Cave :=
  if c.cave_id == cave_id then { c with pick_count := c.pick_count + 1 } else c

/-- `CaveDatabase.increment_pick_count`: `UPDATE cave SET pick_count =
pick_count + 1 WHERE cave_id = ?`, then `return True`; `False` only when
the SQL raised. -/
def increment_pick_count (ok : Bool) (db : List Cave) (cave_id : Nat) :
    List Cave × Bool :=
  if ok then (db.map (bumpPick cave_id), true) else (db, false)

/-- `CaveDatabase.get_random_cave`: `SELECT * WHERE is_deleted = 0 ORDER BY
RANDOM() LIMIT 1`. The randomness is an oracle `r` choosing the row index. -/
def get_random_cave (ok : Bool) (db : List Cave) (r : Nat) : Option Cave :=
  if ok then
    (db.filter (fun c => c.is_deleted == false))[r %
      (db.filter (fun c => c.is_deleted == false)).length]?
  else none

/-- `ORDER BY cave_id DESC` on rows. -/
def caveGe (a b : Cave) : Prop :=
  b.cave_id ≤ a.cave_id

instance : DecidableRel caveGe :=
  fun a b => Nat.decLe b.cave_id a.cave_id

instance : IsTotal Cave caveGe :=
  ⟨fun a b => Nat.le_total b.cave_id a.cave_id⟩

instance : IsTrans Cave caveGe :=
  ⟨fun _ _ _ hab hbc => Nat.le_trans hbc hab⟩

def sortDesc (l : List Cave) : List Cave :=
  l.insertionSort caveGe

/-- `CaveDatabase.get_caves_by_sender`: `COUNT(*)` of the sender's active
rows, then `SELECT cave_id ... ORDER BY cave_id DESC LIMIT ? OFFSET ?`.
On an exception the `except` branch returns `([], 0)`. -/
def get_caves_by_sender (ok : Bool) (db : List Cave) (sender_id : Int)
    (limit offset : Nat) : List Nat × Nat :=
  if ok then
    (((sortDesc (db.filter (fun c => c.sender_id == sender_id &&
        c.is_deleted == false))).drop offset).take limit |>.map Cave.cave_id,
     (db.filter (fun c => c.sender_id == sender_id && c.is_deleted == false)).length)
  else ([], 0)

/-- Row transformer of the `UPDATE ... SET is_deleted = 1` row. -/
def markDeleted (cave_id : Nat) (c : Cave) : Cave :=
  if c.cave_id == cave_id then { c with is_deleted := true } else c

/-- `CaveDatabase.delete_cave`: `UPDATE cave SET is_deleted = 1 WHERE
cave_id = ?`, then `return True`; `False` only when the SQL raised. -/
def delete_cave (ok : Bool) (db : List Cave) (cave_id : Nat) : List Cave × Bool :=
  if ok then (db.map (markDeleted cave_id), true) else (db, false)

/-- `CaveDatabase.search_caves`: `SELECT * WHERE is_deleted = 0 AND text
LIKE '%kw%' ORDER BY cave_id DESC LIMIT ?`. On an exception the `except`
branch returns `[]`. -/
def search_caves (ok : Bool) (db : List Cave) (keyword : String) (limit : Nat) :
    List Cave :=
  if ok then
    (sortDesc (db.filter (fun c => c.is_deleted == false &&
      likeMatch (likePattern keyword) c.text.data))).take limit
  else []

/-- `CavePlugin._is_super_admin`: membership in the configured admin list. -/
def is_super_admin (super_admins : List Int) (qq : Int) : Bool :=
  decide (qq ∈ super_admins)

/-- Outcome messages of the `ca` (add) command. -/
inductive AddOut
  | emptyContent
  | numberOnly
  | contentTooLong
  | addSuccess (cave_id : Nat)
  | addFailed
deriving DecidableEq, Repr

/-- `CavePlugin.cave_add` after command-text extraction: `content` is the
stripped text after the command word. Checks, in source order: empty
content; pure integer literal (`content.isdigit()` or a `-` followed by
digits); length above `max_content_length`; then inserts via `add_cave`
and reports the new id (Python truthiness: id `0` or `None` is failure). -/
def cave_add (ok : Bool) (db : List Cave) (content : String) (sender_id : Int)
    (group_id : Int) (group_nick : String) (max_content_length : Nat) (now : Nat) :
    List Cave × AddOut :=
  if content.data = [] then (db, AddOut.emptyContent)
  else if pyIsDigit content.data ||
      (content.data.head? == some '-' && content.data.length > 1 &&
       pyIsDigit (content.data.drop 1)) then
    (db, AddOut.numberOnly)
  else if content.data.length > max_content_length then (db, AddOut.contentTooLong)
  else
    match add_cave ok db sender_id group_id group_nick content now with
    | (db', some new_id) =>
        if new_id ≠ 0 then (db', AddOut.addSuccess new_id) else (db', AddOut.addFailed)
    | (db', none) => (db', AddOut.addFailed)

/-- Outcome messages of the `ci` (inspect) command. The source replies with
the same `invalid_cave` message for a malformed id and for a missing row. -/
inductive InspectOut
  | invalidCave
  | deletedCave
  | caveDetail (cave_id : Nat) (text : String) (group_nick : String) (pick_count : Nat)
deriving DecidableEq, Repr

/-- `CavePlugin.cave_inspect`: validates the id string (`isdigit` and
`int(...) > 0`), fetches the row regardless of deletion, replies
`deleted_cave` without touching the store when `is_deleted`, and otherwise
increments the pick count and shows `pick_count + 1`. -/
def cave_inspect (ok : Bool) (db : List Cave) (cave_id_str : String) :
    List Cave × InspectOut :=
  if strIsDigit cave_id_str = false ∨ digitsToNat cave_id_str.data ≤ 0 then
    (db, InspectOut.invalidCave)
  else
    match get_cave ok db (digitsToNat cave_id_str.data) with
    | none => (db, InspectOut.invalidCave)
    | some row =>
        if row.is_deleted then (db, InspectOut.deletedCave)
        else ((increment_pick_count ok db (digitsToNat cave_id_str.data)).1,
              InspectOut.caveDetail row.cave_id row.text row.group_nick
                (row.pick_count + 1))

/-- Outcome messages of the `rmcave` (remove) command. -/
inductive RemoveOut
  | invalidCaveId
  | caveNotExist
  | caveAlreadyDeleted
  | noPermission
  | deleteSuccess
  | deleteFailed
deriving DecidableEq, Repr

/-- `CavePlugin.remove_cave`: validates the id string, fetches the row,
reports `cave_not_exist` / `cave_already_deleted`, authorizes (super admin
or the row's own sender), then soft-deletes via `delete_cave`. -/
def remove_cave (ok : Bool) (db : List Cave) (cave_id_str : String)
    (sender_id : Int) (super_admins : List Int) : List Cave × RemoveOut :=
  if strIsDigit cave_id_str = false ∨ digitsToNat cave_id_str.data ≤ 0 then
    (db, RemoveOut.invalidCaveId)
  else
    match get_cave ok db (digitsToNat cave_id_str.data) with
    | none => (db, RemoveOut.caveNotExist)
    | some row =>
        if row.is_deleted then (db, RemoveOut.caveAlreadyDeleted)
        else if is_super_admin super_admins sender_id = false ∧
            sender_id ≠ row.sender_id then
          (db, RemoveOut.noPermission)
        else
          match delete_cave ok db (digitsToNat cave_id_str.data) with
          | (db', true) => (db', RemoveOut.deleteSuccess)
          | (db', false) => (db', RemoveOut.deleteFailed)

/-- `CavePlugin.cave_find` after command-text extraction: `keyword` is the
stripped text after the command word. Rejects an empty keyword, otherwise
runs `search_caves` with `limit = page_size` and sends the results; the
store is only read, never written. Returns (store after the command, rows
sent to the user). -/
def cave_find (ok : Bool) (db : List Cave) (keyword : String) (page_size : Nat) :
    List Cave × List Cave :=
  if keyword = "" then (db, [])
  else (db, search_caves ok db keyword page_size)

/-! Concrete rows used as witnesses and counterexamples. -/

def caveA : Cave := ⟨1, "hello", 7, 0, "g", 0, 100, false⟩

def caveB : Cave := ⟨1, "a", 7, 0, "g", 0, 100, false⟩

def caveD : Cave := ⟨1, "dead", 7, 0, "g", 3, 100, true⟩

def caveE1 : Cave := ⟨1, "echo one", 7, 0, "g", 0, 100, false⟩

def caveE2 : Cave := ⟨2, "echo two", 7, 0, "g", 0, 101, false⟩

/-! Helper lemmas about the storage-engine model. -/

theorem markDeleted_cave_id (i : Nat) (c : Cave) :
    (markDeleted i c).cave_id = c.cave_id := by
  unfold markDeleted
  split <;> rfl

theorem bumpPick_cave_id (i : Nat) (c : Cave) :
    (bumpPick i c).cave_id = c.cave_id := by
  unfold bumpPick
  split <;> rfl

theorem markDeleted_self (c : Cave) :
    markDeleted c.cave_id c = { c with is_deleted := true } := by
  unfold markDeleted
  simp

theorem bumpPick_of_ne (i : Nat) (c : Cave) (h : c.cave_id ≠ i) :
    bumpPick i c = c := by
  unfold bumpPick
  simp [h]

theorem bumpPick_self (c : Cave) :
    bumpPick c.cave_id c = { c with pick_count := c.pick_count + 1 } := by
  unfold bumpPick
  simp

theorem sortDesc_perm (l : List Cave) : List.Perm (sortDesc l) l :=
  List.perm_insertionSort caveGe l

theorem sortDesc_pairwise (l : List Cave) : List.Pairwise caveGe (sortDesc l) :=
  List.sorted_insertionSort caveGe l

theorem mem_sortDesc {a : Cave} {l : List Cave} : a ∈ sortDesc l ↔ a ∈ l :=
  (sortDesc_perm l).mem_iff

theorem get_cave_of_mem (db : List Cave) (c : Cave)
    (hnodup : (db.map Cave.cave_id).Nodup) (hmem : c ∈ db) :
    get_cave true db c.cave_id = some c := by
  show db.find? (fun x => x.cave_id == c.cave_id) = some c
  cases hf : db.find? (fun x => x.cave_id == c.cave_id) with
  | none =>
      have := List.find?_eq_none.mp hf c hmem
      simp at this
  | some x =>
      have hx : x ∈ db := List.mem_of_find?_eq_some hf
      have hpx := List.find?_some hf
      have hxc : x = c :=
        List.inj_on_of_nodup_map hnodup hx hmem (by simpa using hpx)
      rw [hxc]

/-- C1 counterexample: with one active entry matching the keyword, `find`
sends the entry to the user but the store after the command is unchanged —
the matched entry's `pick_count` is still `0`, not `1`. -/
theorem cave_find_no_increment_cex :
    (cave_find true [caveA] "hello" 10).2 = [caveA] ∧
    (cave_find true [caveA] "hello" 10).1 = [caveA] ∧
    caveA.pick_count = 0 := by
  decide

/-- C1 (amended): `find` rejects an empty keyword, and on a non-empty
keyword sends exactly the `search_caves` results; it never writes the
store, so no matched entry's `view_count` changes. -/
theorem cave_find_state_unchanged (ok : Bool) (db : List Cave) (keyword : String)
    (page_size : Nat) :
    (cave_find ok db keyword page_size).1 = db ∧
    (keyword ≠ "" →
      (cave_find ok db keyword page_size).2 = search_caves ok db keyword page_size) ∧
    (keyword = "" → (cave_find ok db keyword page_size).2 = []) := by
  unfold cave_find
  by_cases h : keyword = "" <;> simp [h]

/-- C1 witness: the amended theorem at a concrete matching search. -/
theorem cave_find_state_unchanged_witness :
    (cave_find true [caveA] "hello" 10).2 = search_caves true [caveA] "hello" 10 :=
  (cave_find_state_unchanged true [caveA] "hello" 10).2.1 (by decide)

/-- C2 counterexample: id `5` denotes no entry in the empty store, yet
`increment_pick_count` reports success (`true`), not failure. -/
theorem increment_pick_count_missing_id_cex :
    increment_pick_count true [] 5 = ([], true) ∧ get_cave true [] 5 = none := by
  decide

/-- C2 (amended): on the normal path `increment_pick_count` always reports
success, even for an id with no entry (then the store is unchanged — a
silent no-op, not an error); each entry carrying the id gets `pick_count`
increased by exactly 1 and every other entry is unchanged. -/
theorem increment_pick_count_spec (db : List Cave) (cave_id : Nat) :
    (increment_pick_count true db cave_id).2 = true ∧
    (∀ c, c ∈ db → c.cave_id ≠ cave_id →
      c ∈ (increment_pick_count true db cave_id).1) ∧
    (∀ c, c ∈ db → c.cave_id = cave_id →
      { c with pick_count := c.pick_count + 1 } ∈ (increment_pick_count true db cave_id).1) ∧
    ((∀ c, c ∈ db → c.cave_id ≠ cave_id) → (increment_pick_count true db cave_id).1 = db) := by
  refine ⟨rfl, ?_, ?_, ?_⟩
  · intro c hc hne
    have : bumpPick cave_id c = c := bumpPick_of_ne cave_id c hne
    show c ∈ db.map (bumpPick cave_id)
    rw [← this]
    exact List.mem_map_of_mem _ hc
  · intro c hc heq
    show { c with pick_count := c.pick_count + 1 } ∈ db.map (bumpPick cave_id)
    have : bumpPick cave_id c = { c with pick_count := c.pick_count + 1 } := by
      rw [← heq]
      exact bumpPick_self c
    rw [← this]
    exact List.mem_map_of_mem _ hc
  · intro hall
    show db.map (bumpPick cave_id) = db
    induction db with
    | nil => rfl
    | cons a l ih =>
        rw [List.map_cons, bumpPick_of_ne cave_id a (hall a (List.mem_cons_self a l)),
          ih (fun c hc => hall c (List.mem_cons_of_mem a hc))]

/-- C2 witness: the amended theorem at a concrete store. -/
theorem increment_pick_count_spec_witness :
    { caveA with pick_count := caveA.pick_count + 1 } ∈
      (increment_pick_count true [caveA] 1).1 :=
  (increment_pick_count_spec [caveA] 1).2.2.1 caveA (by decide) (by decide)

/-- C3 counterexample: a storage failure during `get_cave` on a store that
does contain id 1 returns exactly the not-found value; likewise `search`
returns the no-matches value and the owner listing the zero-entries value.
The caller cannot distinguish the failure. -/
theorem storage_failure_indistinguishable_cex :
    get_cave false [caveA] 1 = get_cave true [] 1 ∧
    search_caves false [caveA] "hello" 10 = search_caves true [] "hello" 10 ∧
    get_caves_by_sender false [caveA] 7 10 0 = get_caves_by_sender true [] 7 10 0 := by
  decide

/-- C3 (amended): a storage failure during `get_cave`, `search_caves`, or
`get_caves_by_sender` is logged and swallowed: the caller receives `none`,
`[]`, `([], 0)` — the same values as not-found / no matches / zero
entries; only the mutating operations report failure distinguishably
(`none` from `add_cave`, `false` from the two updates). -/
theorem storage_failure_swallowed (db : List Cave) (cave_id : Nat)
    (keyword : String) (limit offset : Nat) (sid gid : Int)
    (nick content : String) (now : Nat) :
    get_cave false db cave_id = none ∧
    search_caves false db keyword limit = [] ∧
    get_caves_by_sender false db sid limit offset = ([], 0) ∧
    (increment_pick_count false db cave_id).2 = false ∧
    (delete_cave false db cave_id).2 = false ∧
    (add_cave false db sid gid nick content now).2 = none :=
  ⟨rfl, rfl, rfl, rfl, rfl, rfl⟩

/-- C10: the `ca` handler rejects content that is a pure integer literal
(all digits, or `-` followed by digits) before touching the store, for any
length bound and even when the storage layer would fail: the store is
unchanged and the reply is the `number_only` message. -/
theorem cave_add_rejects_number (ok : Bool) (db : List Cave) (content : String)
    (sender_id : Int) (group_id : Int) (group_nick : String)
    (max_content_length : Nat) (now : Nat)
    (hnum : pyIsDigit content.data = true ∨
      (content.data.head? = some '-' ∧ 1 < content.data.length ∧
       pyIsDigit (content.data.drop 1) = true)) :
    cave_add ok db content sender_id group_id group_nick max_content_length now =
      (db, AddOut.numberOnly) := by
  have hne : content.data ≠ [] := by
    rcases hnum with h | ⟨h, _, _⟩
    · intro he
      rw [he] at h
      simp [pyIsDigit] at h
    · intro he
      rw [he] at h
      simp at h
  have hcond : (pyIsDigit content.data ||
      (content.data.head? == some '-' && decide (content.data.length > 1) &&
       pyIsDigit (content.data.drop 1))) = true := by
    rcases hnum with h | ⟨h1, h2, h3⟩
    · simp [h]
    · have hb2 : decide (content.data.length > 1) = true := decide_eq_true h2
      rw [h1, hb2, h3]
      simp
  unfold cave_add
  rw [if_neg hne, if_pos]
  exact hcond

/-- C10 witness: a concrete all-digit submission is rejected. -/
theorem cave_add_rejects_number_witness :
    cave_add true [] "123" 7 0 "g" 200 100 = ([], AddOut.numberOnly) :=
  cave_add_rejects_number true [] "123" 7 0 "g" 200 100 (Or.inl (by decide))

/-- C4: a soft-deleted entry is never returned by the random pick, by
search, or by the owner listing, but a direct id lookup still returns the
row with its deleted flag set (id uniqueness as the `PRIMARY KEY`
guarantees it). -/
theorem deleted_entry_invisible (db : List Cave) (c : Cave)
    (hnodup : (db.map Cave.cave_id).Nodup) (hmem : c ∈ db)
    (hdel : c.is_deleted = true) :
    (∀ r, get_random_cave true db r ≠ some c) ∧
    (∀ keyword limit, c ∉ search_caves true db keyword limit) ∧
    (∀ sid limit offset, c.cave_id ∉ (get_caves_by_sender true db sid limit offset).1) ∧
    get_cave true db c.cave_id = some c := by
  refine ⟨?_, ?_, ?_, get_cave_of_mem db c hnodup hmem⟩
  · intro r h
    simp only [get_random_cave, if_true] at h
    have hmf : c ∈ db.filter (fun x => x.is_deleted == false) :=
      List.getElem?_mem h
    have := (List.mem_filter.mp hmf).2
    rw [hdel] at this
    simp at this
  · intro keyword limit h
    simp only [search_caves, if_true] at h
    have h1 : c ∈ sortDesc (db.filter (fun x => x.is_deleted == false &&
        likeMatch (likePattern keyword) x.text.data)) :=
      List.mem_of_mem_take h
    have h2 := (List.mem_filter.mp (mem_sortDesc.mp h1)).2
    rw [hdel] at h2
    simp at h2
  · intro sid limit offset h
    simp only [get_caves_by_sender, if_true] at h
    obtain ⟨x, hx, hxid⟩ := List.mem_map.mp h
    have hx1 : x ∈ sortDesc (db.filter (fun y => y.sender_id == sid &&
        y.is_deleted == false)) :=
      (List.drop_sublist _ _).subset ((List.take_sublist _ _).subset hx)
    obtain ⟨hxdb, hpx⟩ := List.mem_filter.mp (mem_sortDesc.mp hx1)
    have hxc : x = c := List.inj_on_of_nodup_map hnodup hxdb hmem hxid
    rw [hxc, hdel] at hpx
    simp at hpx

/-- C4 witness: the theorem at a one-row store holding a deleted entry. -/
theorem deleted_entry_invisible_witness :
    get_cave true [caveD] caveD.cave_id = some caveD :=
  (deleted_entry_invisible [caveD] caveD (by decide) (by decide) (by decide)).2.2.2

/-- C5: inspecting a soft-deleted entry by id leaves the store unchanged:
the reply is the `deleted_cave` message, no `pick_count` is incremented,
and the deleted flag is not cleared. -/
theorem cave_inspect_deleted_frame (db : List Cave) (c : Cave) (s : String)
    (hs1 : strIsDigit s = true) (hs2 : digitsToNat s.data = c.cave_id)
    (hpos : 0 < c.cave_id)
    (hget : get_cave true db c.cave_id = some c) (hdel : c.is_deleted = true) :
    cave_inspect true db s = (db, InspectOut.deletedCave) := by
  have hcond : ¬(strIsDigit s = false ∨ digitsToNat s.data ≤ 0) := by
    rw [hs1, hs2]
    simp [Nat.not_le.mpr hpos]
  unfold cave_inspect
  rw [if_neg hcond, hs2, hget]
  simp [hdel]

/-- C5 witness: the theorem at a one-row store holding a deleted entry. -/
theorem cave_inspect_deleted_frame_witness :
    cave_inspect true [caveD] "1" = ([caveD], InspectOut.deletedCave) :=
  cave_inspect_deleted_frame [caveD] caveD "1" (by decide) (by decide)
    (by decide) (by decide) (by decide)

/-! Helper lemmas for the remove command. -/

theorem markDeleted_markDeleted (i : Nat) (c : Cave) :
    markDeleted i (markDeleted i c) = markDeleted i c := by
  by_cases h : (c.cave_id == i) = true
  · simp [markDeleted, h]
  · simp [markDeleted, h]

theorem map_markDeleted_idem (i : Nat) (db : List Cave) :
    (db.map (markDeleted i)).map (markDeleted i) = db.map (markDeleted i) := by
  rw [List.map_map]
  exact List.map_congr_left (fun a _ => markDeleted_markDeleted i a)

theorem find?_map_markDeleted (i j : Nat) (db : List Cave) :
    (db.map (markDeleted i)).find? (fun c => c.cave_id == j) =
      Option.map (markDeleted i) (db.find? (fun c => c.cave_id == j)) := by
  induction db with
  | nil => rfl
  | cons a l ih =>
      cases h : (a.cave_id == j) with
      | true => simp [List.find?, markDeleted_cave_id, h]
      | false => simp [List.find?, markDeleted_cave_id, h, ih]

theorem remove_cave_allowed_eq (db : List Cave) (c : Cave) (s : String)
    (sender_id : Int) (super_admins : List Int)
    (hs1 : strIsDigit s = true) (hs2 : digitsToNat s.data = c.cave_id)
    (hpos : 0 < c.cave_id)
    (hget : get_cave true db c.cave_id = some c) (hact : c.is_deleted = false)
    (hauth : sender_id ∈ super_admins ∨ sender_id = c.sender_id) :
    remove_cave true db s sender_id super_admins =
      (db.map (markDeleted c.cave_id), RemoveOut.deleteSuccess) := by
  have hcond : ¬(strIsDigit s = false ∨ digitsToNat s.data ≤ 0) := by
    rw [hs1, hs2]
    simp [Nat.not_le.mpr hpos]
  have hauth' : ¬(is_super_admin super_admins sender_id = false ∧
      sender_id ≠ c.sender_id) := by
    rcases hauth with h | h
    · intro hc
      rw [is_super_admin, decide_eq_true h] at hc
      simp at hc
    · intro hc
      exact hc.2 h
  unfold remove_cave
  rw [if_neg hcond, hs2, hget]
  simp [hact, hauth', delete_cave]

theorem remove_cave_forbidden_eq (db : List Cave) (c : Cave) (s : String)
    (sender_id : Int) (super_admins : List Int)
    (hs1 : strIsDigit s = true) (hs2 : digitsToNat s.data = c.cave_id)
    (hpos : 0 < c.cave_id)
    (hget : get_cave true db c.cave_id = some c) (hact : c.is_deleted = false)
    (hna : sender_id ∉ super_admins) (hns : sender_id ≠ c.sender_id) :
    remove_cave true db s sender_id super_admins = (db, RemoveOut.noPermission) := by
  have hcond : ¬(strIsDigit s = false ∨ digitsToNat s.data ≤ 0) := by
    rw [hs1, hs2]
    simp [Nat.not_le.mpr hpos]
  have hcond2 : is_super_admin super_admins sender_id = false ∧
      sender_id ≠ c.sender_id :=
    ⟨by rw [is_super_admin]; exact decide_eq_false hna, hns⟩
  unfold remove_cave
  rw [if_neg hcond, hs2, hget]
  simp [hact, hcond2]

theorem remove_cave_deleted_eq (db : List Cave) (c : Cave) (s : String)
    (sender_id : Int) (super_admins : List Int)
    (hs1 : strIsDigit s = true) (hs2 : digitsToNat s.data = c.cave_id)
    (hpos : 0 < c.cave_id)
    (hget : get_cave true db c.cave_id = some c) (hdel : c.is_deleted = true) :
    remove_cave true db s sender_id super_admins =
      (db, RemoveOut.caveAlreadyDeleted) := by
  have hcond : ¬(strIsDigit s = false ∨ digitsToNat s.data ≤ 0) := by
    rw [hs1, hs2]
    simp [Nat.not_le.mpr hpos]
  unfold remove_cave
  rw [if_neg hcond, hs2, hget]
  simp [hdel]

/-- C6: on an existing active entry, `rmcave` soft-deletes iff the
requester is a super admin or the entry's own sender; otherwise it
replies `no_permission` and leaves the store untouched; and the three
outcomes not-exist / already-deleted / no-permission are pairwise
distinct replies. -/
theorem remove_cave_auth (db : List Cave) (c : Cave) (s : String)
    (sender_id : Int) (super_admins : List Int)
    (hs1 : strIsDigit s = true) (hs2 : digitsToNat s.data = c.cave_id)
    (hpos : 0 < c.cave_id)
    (hget : get_cave true db c.cave_id = some c) (hact : c.is_deleted = false) :
    ((sender_id ∈ super_admins ∨ sender_id = c.sender_id) →
      remove_cave true db s sender_id super_admins =
        (db.map (markDeleted c.cave_id), RemoveOut.deleteSuccess) ∧
      { c with is_deleted := true } ∈ (remove_cave true db s sender_id super_admins).1) ∧
    ((sender_id ∉ super_admins ∧ sender_id ≠ c.sender_id) →
      remove_cave true db s sender_id super_admins = (db, RemoveOut.noPermission)) ∧
    (RemoveOut.caveNotExist ≠ RemoveOut.caveAlreadyDeleted ∧
      RemoveOut.caveNotExist ≠ RemoveOut.noPermission ∧
      RemoveOut.caveAlreadyDeleted ≠ RemoveOut.noPermission) := by
  have hcm : c ∈ db := List.mem_of_find?_eq_some hget
  refine ⟨?_, ?_, by decide, by decide, by decide⟩
  · intro hauth
    have he := remove_cave_allowed_eq db c s sender_id super_admins
      hs1 hs2 hpos hget hact hauth
    refine ⟨he, ?_⟩
    rw [he, ← markDeleted_self]
    exact List.mem_map_of_mem _ hcm
  · intro ⟨hna, hns⟩
    exact remove_cave_forbidden_eq db c s sender_id super_admins
      hs1 hs2 hpos hget hact hna hns

/-- C6 witness: the owner deletes their own entry, and a stranger is
refused. -/
theorem remove_cave_auth_witness :
    remove_cave true [caveA] "1" 7 [] =
      ([caveA].map (markDeleted caveA.cave_id), RemoveOut.deleteSuccess) :=
  ((remove_cave_auth [caveA] caveA "1" 7 [] (by decide) (by decide) (by decide)
    (by decide) (by decide)).1 (Or.inr rfl)).1

/-- C7: deleting an existing active entry twice through the command layer:
the first call replies `delete_success`, the second replies
`cave_already_deleted`; yet the engine-level `delete_cave` on the
already-deleted id is a successful no-op (returns `true` and leaves the
store exactly as it was). -/
theorem remove_cave_double_delete (db : List Cave) (c : Cave) (s : String)
    (sender_id : Int) (super_admins : List Int)
    (hs1 : strIsDigit s = true) (hs2 : digitsToNat s.data = c.cave_id)
    (hpos : 0 < c.cave_id)
    (hget : get_cave true db c.cave_id = some c) (hact : c.is_deleted = false)
    (hauth : sender_id ∈ super_admins ∨ sender_id = c.sender_id) :
    (remove_cave true db s sender_id super_admins).2 = RemoveOut.deleteSuccess ∧
    (remove_cave true (remove_cave true db s sender_id super_admins).1 s
        sender_id super_admins).2 = RemoveOut.caveAlreadyDeleted ∧
    delete_cave true (remove_cave true db s sender_id super_admins).1 c.cave_id =
      ((remove_cave true db s sender_id super_admins).1, true) := by
  have he := remove_cave_allowed_eq db c s sender_id super_admins
    hs1 hs2 hpos hget hact hauth
  have hget2 : get_cave true (db.map (markDeleted c.cave_id)) c.cave_id =
      some { c with is_deleted := true } := by
    show (db.map (markDeleted c.cave_id)).find? (fun x => x.cave_id == c.cave_id) = _
    rw [find?_map_markDeleted]
    have hg : db.find? (fun x => x.cave_id == c.cave_id) = some c := hget
    rw [hg, ← markDeleted_self c]
    rfl
  refine ⟨by rw [he], ?_, ?_⟩
  · rw [he]
    rw [remove_cave_deleted_eq (db.map (markDeleted c.cave_id))
      { c with is_deleted := true } s sender_id super_admins hs1 hs2 hpos hget2 rfl]
  · rw [he]
    show delete_cave true (db.map (markDeleted c.cave_id)) c.cave_id = _
    unfold delete_cave
    rw [if_pos rfl, map_markDeleted_idem]

/-- C7 witness: a concrete double delete by the owner. -/
theorem remove_cave_double_delete_witness :
    (remove_cave true (remove_cave true [caveA] "1" 7 []).1 "1" 7 []).2 =
      RemoveOut.caveAlreadyDeleted :=
  (remove_cave_double_delete [caveA] caveA "1" 7 [] (by decide) (by decide)
    (by decide) (by decide) (by decide) (Or.inr rfl)).2.1

/-- C8 counterexample: SQLite `LIKE` is case-insensitive on ASCII, so the
keyword `"A"` matches the active entry whose text is `"a"`, although `"A"`
is not a substring of `"a"`: the result is not «exactly the active entries
whose text contains the keyword as a substring». -/
theorem search_caves_substring_cex :
    search_caves true [caveB] "A" 10 = [caveB] ∧
    specContains "A" caveB.text = false ∧
    caveB.is_deleted = false := by
  decide

/-- In a list sorted descending by id, an element left out of the prefix
of length `n` has an id at most that of every element kept. -/
theorem take_mem_le (l : List Cave) (n : Nat) (hpw : List.Pairwise caveGe l)
    (c : Cave) (hc : c ∈ l) (hnot : c ∉ l.take n) :
    ∀ d, d ∈ l.take n → c.cave_id ≤ d.cave_id := by
  intro d hd
  rw [← List.take_append_drop n l] at hpw hc
  have hcdrop : c ∈ l.drop n := (List.mem_append.mp hc).resolve_left hnot
  exact (List.pairwise_append.mp hpw).2.2 d hd c hcdrop

/-- C8 (amended): `search` returns exactly the active entries whose text
matches the SQL `LIKE` pattern `%keyword%` (ASCII-case-insensitive, with
`%` and `_` as wildcards), ordered by descending id and truncated to at
most `limit` results with no error on truncation — truncation keeps the
highest ids: any matching row left out has an id at most that of every
returned row, the result holds `min limit matches` rows, and when
everything fits every matching row is returned. Plain substring
containment describes the match only up to case folding and wildcards. -/
theorem search_caves_like_spec (db : List Cave) (keyword : String) (limit : Nat) :
    (∀ c, c ∈ search_caves true db keyword limit →
      c ∈ db ∧ c.is_deleted = false ∧
      likeMatch (likePattern keyword) c.text.data = true) ∧
    (∀ c, c ∈ db → c.is_deleted = false →
      likeMatch (likePattern keyword) c.text.data = true →
      c ∉ search_caves true db keyword limit →
      ∀ d, d ∈ search_caves true db keyword limit → c.cave_id ≤ d.cave_id) ∧
    (search_caves true db keyword limit).length =
      min limit (db.filter (fun c => c.is_deleted == false &&
        likeMatch (likePattern keyword) c.text.data)).length ∧
    ((db.filter (fun c => c.is_deleted == false &&
        likeMatch (likePattern keyword) c.text.data)).length ≤ limit →
      ∀ c, c ∈ db → c.is_deleted = false →
        likeMatch (likePattern keyword) c.text.data = true →
        c ∈ search_caves true db keyword limit) ∧
    List.Pairwise caveGe (search_caves true db keyword limit) ∧
    (search_caves true db keyword limit).length ≤ limit := by
  refine ⟨?_, ?_, ?_, ?_, ?_, ?_⟩
  · intro c hc
    simp only [search_caves, if_true] at hc
    have h1 := List.mem_of_mem_take hc
    obtain ⟨hdb, hp⟩ := List.mem_filter.mp (mem_sortDesc.mp h1)
    rw [Bool.and_eq_true] at hp
    exact ⟨hdb, by simpa using hp.1, hp.2⟩
  · intro c hdb hact hmatch hnotin
    simp only [search_caves, if_true] at hnotin ⊢
    exact take_mem_le _ limit (sortDesc_pairwise _) c
      (mem_sortDesc.mpr (List.mem_filter.mpr ⟨hdb, by simp [hact, hmatch]⟩)) hnotin
  · simp only [search_caves, if_true]
    rw [List.length_take, (sortDesc_perm _).length_eq]
  · intro hlen c hdb hact hmatch
    simp only [search_caves, if_true]
    rw [List.take_of_length_le (by rw [(sortDesc_perm _).length_eq]; exact hlen)]
    exact mem_sortDesc.mpr (List.mem_filter.mpr ⟨hdb, by simp [hact, hmatch]⟩)
  · simp only [search_caves, if_true]
    exact (sortDesc_pairwise _).sublist (List.take_sublist _ _)
  · simp only [search_caves, if_true]
    exact List.length_take_le _ _

/-- C8 witness: the spec's own example — two active entries `"echo one"`
(id 1) and `"echo two"` (id 2), `search("echo", limit=1)` returns exactly
the most recently created one; the theorem's truncation conjunct applied
to the left-out row confirms it ranks at or below every returned row. -/
theorem search_caves_like_spec_witness :
    search_caves true [caveE1, caveE2] "echo" 1 = [caveE2] ∧
    caveE1.cave_id ≤ caveE2.cave_id :=
  ⟨by decide,
   (search_caves_like_spec [caveE1, caveE2] "echo" 1).2.1 caveE1 (by decide)
     (by decide) (by decide) (by decide) caveE2 (by decide)⟩

/-- C9: the owner listing reports `total` as the number of the sender's
active entries; every returned id belongs to one of the sender's active
entries; ids come in descending order; an offset at or beyond `total`
yields an empty page while `total` stays correct; and with offset `0` and
a large enough limit every active entry of the sender is listed. -/
theorem get_caves_by_sender_spec (db : List Cave) (sender_id : Int)
    (limit offset : Nat) :
    (get_caves_by_sender true db sender_id limit offset).2 =
      db.countP (fun c => c.sender_id == sender_id && c.is_deleted == false) ∧
    (∀ i, i ∈ (get_caves_by_sender true db sender_id limit offset).1 →
      ∃ c, c ∈ db ∧ c.cave_id = i ∧ c.sender_id = sender_id ∧
        c.is_deleted = false) ∧
    List.Pairwise (fun a b => b ≤ a)
      (get_caves_by_sender true db sender_id limit offset).1 ∧
    ((get_caves_by_sender true db sender_id limit offset).2 ≤ offset →
      (get_caves_by_sender true db sender_id limit offset).1 = []) ∧
    (offset = 0 →
      db.countP (fun c => c.sender_id == sender_id && c.is_deleted == false) ≤ limit →
      ∀ c, c ∈ db → c.sender_id = sender_id → c.is_deleted = false →
        c.cave_id ∈ (get_caves_by_sender true db sender_id limit offset).1) := by
  refine ⟨?_, ?_, ?_, ?_, ?_⟩
  · simp only [get_caves_by_sender, if_true]
    exact (List.countP_eq_length_filter _ _).symm
  · intro i hi
    simp only [get_caves_by_sender, if_true] at hi
    obtain ⟨x, hx, hxid⟩ := List.mem_map.mp hi
    have hx1 := (List.drop_sublist _ _).subset ((List.take_sublist _ _).subset hx)
    obtain ⟨hxdb, hp⟩ := List.mem_filter.mp (mem_sortDesc.mp hx1)
    rw [Bool.and_eq_true] at hp
    exact ⟨x, hxdb, hxid, by simpa using hp.1, by simpa using hp.2⟩
  · simp only [get_caves_by_sender, if_true]
    exact List.pairwise_map.mpr ((sortDesc_pairwise _).sublist
      ((List.take_sublist _ _).trans (List.drop_sublist _ _)))
  · intro h
    simp only [get_caves_by_sender, if_true] at h ⊢
    rw [List.drop_eq_nil_of_le (by rw [(sortDesc_perm _).length_eq]; exact h)]
    simp
  · intro hoff hle c hdb hsid hact
    simp only [get_caves_by_sender, if_true]
    rw [hoff, List.drop_zero,
      List.take_of_length_le (by
        rw [(sortDesc_perm _).length_eq, ← List.countP_eq_length_filter]
        exact hle)]
    exact List.mem_map_of_mem _
      (mem_sortDesc.mpr (List.mem_filter.mpr ⟨hdb, by simp [hsid, hact]⟩))

/-- C9 witness: an offset beyond the total yields an empty page. -/
theorem get_caves_by_sender_spec_witness :
    (get_caves_by_sender true [caveA] 7 10 5).1 = [] :=
  (get_caves_by_sender_spec [caveA] 7 10 5).2.2.2.1 (by decide)
